import Mathlib

/-!
Verification of the first-person renderer in `example/render2Dto3D.py`
(class `Renderer2Dto3D`). The geometry pipeline is embedded shallowly over
`ℚ`: every arithmetic step of the Python source is translated literally,
with the transcendental inputs (values of `cos`, `sin`, `tan`, `sqrt`
computed by numpy) abstracted as explicit parameters or function
arguments, so that each definition is executable and each claim can be
evaluated on concrete inputs.

Default configuration constants (from `Renderer2Dto3D.__init__`):
`image_width = 640`, `image_height = 480`, `camera_height = 1.2`,
`fov = 90` degrees, and `view_distance = 50.0`,
`near epsilon = 0.1` from `_render_first_person_frame`.
-/

/-- Camera-space point as built in `_render_first_person_frame`
(lines 488-492): forward depth `local_x`, lateral offset `local_y`
(positive to the robot's right), and straight-line `distance`. -/
structure CamPt where
  local_x : ℚ
  local_y : ℚ
  distance : ℚ
deriving Repr, DecidableEq

instance : Inhabited CamPt := ⟨⟨0, 0, 0⟩⟩

/-- Near-plane epsilon: the literal `0.1` used throughout
`_render_first_person_frame`. -/
def nearEps : ℚ := 1/10

/-- Interpolation parameter `t = (0.1 - v1.local_x) / (v2.local_x - v1.local_x)`
from lines 508 and 517 of `render2Dto3D.py`. -/
def clipT (v1 v2 : CamPt) : ℚ :=
  (nearEps - v1.local_x) / (v2.local_x - v1.local_x)

/-- The interpolated endpoint built at lines 509-513 (and 518-522):
`local_x` is assigned the literal `0.1`, `local_y` and `distance` are
interpolated by `t`. -/
def clipPoint (v1 v2 : CamPt) : CamPt :=
  { local_x := nearEps
    local_y := v1.local_y + clipT v1 v2 * (v2.local_y - v1.local_y)
    distance := v1.distance + clipT v1 v2 * (v2.distance - v1.distance) }

/-- One edge of the visibility/clipping loop, lines 504-526 of
`render2Dto3D.py`: `none` when the edge is dropped, otherwise the emitted
(possibly clipped) endpoint pair. -/
def clipEdge (v1 v2 : CamPt) : Option (CamPt × CamPt) :=
  if v1.local_x > nearEps ∨ v2.local_x > nearEps ∨
      (v1.local_x < 0 ∧ v2.local_x > 0) then
    if v1.local_x ≤ nearEps ∧ v2.local_x > nearEps then
      some (clipPoint v1 v2, v2)
    else if v1.local_x > nearEps ∧ v2.local_x ≤ nearEps then
      some (v1, clipPoint v1 v2)
    else
      some (v1, v2)
  else
    none

/-- The cyclic edge list of a vertex ring: vertex `i` paired with vertex
`(i+1) mod n`, as in the loop at lines 499-501. -/
def ringEdges (ring : List CamPt) : List (CamPt × CamPt) :=
  (List.range ring.length).map fun i =>
    (ring.getD i default, ring.getD ((i + 1) % ring.length) default)

/-- The `visible_edges` list produced by the clipping loop at lines
496-526 of `render2Dto3D.py`. -/
def visibleEdges (ring : List CamPt) : List (CamPt × CamPt) :=
  (ringEdges ring).filterMap fun e => clipEdge e.1 e.2

/-- Concrete vertex ring exercising the leaky branch of the clipper: the
edge from `local_x = -1` to `local_x = 1/20` crosses the camera plane but
neither endpoint exceeds the near epsilon `1/10`. -/
def leakRing : List CamPt :=
  [⟨-1, 0, 1⟩, ⟨1/20, 0, 1/20⟩, ⟨1, 0, 1⟩]

/-- C1: the claim that every emitted edge has both endpoints with
`local_x ≥ 0.1` fails on the code: for the ring `leakRing`, the edge
from `local_x = -1` to `local_x = 1/20` satisfies the outer visibility
test (sign change, line 504) but neither clipping branch (lines 506,
515), so the `else` branch at line 524 emits it verbatim with
`v1.local_x = -1 < 0.1` and `v2.local_x = 1/20 < 0.1`. -/
theorem C1_clipper_emits_edge_behind_near_plane :
    ((⟨-1, 0, 1⟩ : CamPt), (⟨1/20, 0, 1/20⟩ : CamPt)) ∈ visibleEdges leakRing ∧
      (-1 : ℚ) < nearEps ∧ (1/20 : ℚ) < nearEps := by
  refine ⟨?_, by norm_num [nearEps], by norm_num [nearEps]⟩
  have h : visibleEdges leakRing =
      [((⟨-1, 0, 1⟩ : CamPt), (⟨1/20, 0, 1/20⟩ : CamPt)),
       ((⟨1/10, 0, 1/10⟩ : CamPt), (⟨1, 0, 1⟩ : CamPt)),
       ((⟨1, 0, 1⟩ : CamPt), (⟨1/10, 0, 1⟩ : CamPt))] := by
    norm_num [visibleEdges, ringEdges, leakRing, clipEdge, clipPoint, clipT,
      nearEps, List.range_succ, List.filterMap_cons]
  rw [h]
  exact List.mem_cons_self _ _

/-- C2: when exactly one endpoint is behind the near plane (`local_x ≤ 0.1`
versus `> 0.1`), `clipEdge` replaces the behind endpoint by interpolation
at `t = (0.1 - v1.local_x) / (v2.local_x - v1.local_x)`, the new endpoint
has `local_x = 0.1` exactly with `local_y` and `distance` interpolated by
the same `t`, and the far endpoint is kept unmodified; on the concrete
edge `v1.local_x = -1`, `v2.local_x = 3` the parameter is `t = 0.275`. -/
theorem C2_near_plane_interpolation (v1 v2 : CamPt) :
    (v1.local_x ≤ nearEps → nearEps < v2.local_x →
      clipEdge v1 v2 = some (clipPoint v1 v2, v2)) ∧
    (nearEps < v1.local_x → v2.local_x ≤ nearEps →
      clipEdge v1 v2 = some (v1, clipPoint v1 v2)) ∧
    (clipPoint v1 v2).local_x = nearEps ∧
    (clipPoint v1 v2).local_y = v1.local_y + clipT v1 v2 * (v2.local_y - v1.local_y) ∧
    (clipPoint v1 v2).distance = v1.distance + clipT v1 v2 * (v2.distance - v1.distance) ∧
    (v1.local_x = -1 → v2.local_x = 3 → clipT v1 v2 = 11/40) := by
  refine ⟨?_, ?_, rfl, rfl, rfl, ?_⟩
  · intro h1 h2
    rw [clipEdge, if_pos (Or.inr (Or.inl h2)), if_pos ⟨h1, h2⟩]
  · intro h1 h2
    have hnot : ¬ (v1.local_x ≤ nearEps ∧ nearEps < v2.local_x) := by
      intro h
      exact absurd h1 (not_lt.mpr h.1)
    rw [clipEdge, if_pos (Or.inl h1), if_neg hnot, if_pos ⟨h1, h2⟩]
  · intro h1 h2
    rw [clipT, h1, h2]
    norm_num [nearEps]

/-- Witness for C2: the concrete edge from the spec,
`v1 = (-1, 0, 1)`, `v2 = (3, 4, 5)`, is clipped to the point
`(0.1, 1.1, 2.1)` with `t = 0.275`, and the far endpoint is unchanged. -/
theorem C2_near_plane_interpolation_witness :
    clipEdge ⟨-1, 0, 1⟩ ⟨3, 4, 5⟩ = some (⟨1/10, 11/10, 21/10⟩, ⟨3, 4, 5⟩) ∧
      clipT ⟨-1, 0, 1⟩ ⟨3, 4, 5⟩ = 11/40 := by
  have h := C2_near_plane_interpolation ⟨-1, 0, 1⟩ ⟨3, 4, 5⟩
  have h1 := h.1 (by norm_num [nearEps]) (by norm_num [nearEps])
  have ht := h.2.2.2.2.2 rfl rfl
  refine ⟨?_, ht⟩
  rw [h1]
  have : clipPoint ⟨-1, 0, 1⟩ ⟨3, 4, 5⟩ = ⟨1/10, 11/10, 21/10⟩ := by
    simp only [clipPoint, ht]
    norm_num [nearEps]
  rw [this]

/-- Python `int()` applied to a real value: truncation toward zero. -/
def pytrunc (q : ℚ) : ℤ := if q < 0 then ⌈q⌉ else ⌊q⌋

/-- Default `image_width` (640 pixels) from `Renderer2Dto3D.__init__`. -/
def imageWidth : ℤ := 640

/-- Default `image_height` (480 pixels) from `Renderer2Dto3D.__init__`. -/
def imageHeight : ℤ := 480

/-- Default `camera_height` (1.2 metres) from `Renderer2Dto3D.__init__`. -/
def cameraHeight : ℚ := 6/5

/-- Truncation toward zero is monotone. -/
theorem pytrunc_mono {a b : ℚ} (h : a ≤ b) : pytrunc a ≤ pytrunc b := by
  unfold pytrunc
  rcases lt_or_le a 0 with ha | ha
  · rcases lt_or_le b 0 with hb | hb
    · rw [if_pos ha, if_pos hb]
      exact Int.ceil_le_ceil h
    · rw [if_pos ha, if_neg (not_lt.mpr hb)]
      refine le_trans (Int.ceil_le.mpr ?_) (Int.floor_nonneg.mpr hb)
      exact_mod_cast ha.le
  · rw [if_neg (not_lt.mpr ha), if_neg (not_lt.mpr (le_trans ha h))]
    exact Int.floor_le_floor h

/-- Truncation fixes integers. -/
theorem pytrunc_intCast (n : ℤ) : pytrunc (n : ℚ) = n := by
  unfold pytrunc
  rcases lt_or_le (n : ℚ) 0 with h | h
  · rw [if_pos h, Int.ceil_intCast]
  · rw [if_neg (not_lt.mpr h), Int.floor_intCast]

/-- Truncation of a nonnegative value is nonnegative. -/
theorem pytrunc_nonneg {q : ℚ} (h : 0 ≤ q) : 0 ≤ pytrunc q := by
  unfold pytrunc
  rw [if_neg (not_lt.mpr h)]
  exact Int.floor_nonneg.mpr h

/-- `_project_to_screen_x(y, z)` from lines 1038-1046 of
`render2Dto3D.py`: for `z ≤ 0` return `image_width // 2`; otherwise
return `int(image_width/2 + (y/z) * (image_width / (2 * tan(fov/2))))`.
The parameter `tanHalf` stands for the transcendental value
`tan(deg2rad(fov)/2)` computed by numpy (equal to `1` at the default
`fov = 90`). -/
def projectToScreenX (tanHalf y z : ℚ) : ℤ :=
  if z ≤ 0 then imageWidth / 2
  else pytrunc ((imageWidth : ℚ) / 2 + y / z * ((imageWidth : ℚ) / (2 * tanHalf)))

/-- `_project_to_screen_y(z, horizon_y)` from lines 1048-1057 of
`render2Dto3D.py`: for `z ≤ 0.01` return `horizon_y`; otherwise return
`int(min(image_height - 1, horizon_y + focal * camera_height / z))` with
`focal = image_height / (2 * tan(fov/2))`. -/
def projectToScreenY (tanHalf z : ℚ) (horizon : ℤ) : ℤ :=
  if z ≤ 1/100 then horizon
  else pytrunc (min ((imageHeight : ℚ) - 1)
    ((horizon : ℚ) + (imageHeight : ℚ) / (2 * tanHalf) * cameraHeight / z))

/-- C4 counterexample: at `tanHalf = 1`, `lateralY = 1`, `depthZ = 640`
the claimed formula gives `320 + (1/640)*320 = 320.5`, but the code
returns the truncated integer `320`, so the function does not equal the
real-valued formula. -/
theorem C4_projectX_not_exact_formula :
    ((projectToScreenX 1 1 640 : ℤ) : ℚ) ≠
      (imageWidth : ℚ) / 2 + (1 / 640) * ((imageWidth : ℚ) / (2 * 1)) := by
  have h : projectToScreenX 1 1 640 = 320 := by
    rw [projectToScreenX, if_neg (by norm_num)]
    unfold pytrunc
    rw [if_neg (by norm_num [imageWidth])]
    have : ((imageWidth : ℚ) / 2 + 1 / 640 * ((imageWidth : ℚ) / (2 * 1))) = 641/2 := by
      norm_num [imageWidth]
    rw [this]
    rw [Int.floor_eq_iff]
    constructor
    · norm_num
    · norm_num
  rw [h]
  norm_num [imageWidth]

/-- C4 amended: `projectToScreenX` returns the integer truncation
(Python `int`, toward zero) of
`width/2 + (lateralY/depthZ) * (width / (2*tan(hfov/2)))` for
`depthZ > 0`; it is monotone non-decreasing in `lateralY` for
`depthZ > 0` and positive `tanHalf`; it returns exactly `width/2 = 320`
when `lateralY = 0`; and it returns `width/2 = 320` for `depthZ ≤ 0`. -/
theorem C4_projectX_properties (tanHalf y y1 y2 z : ℚ) :
    (z ≤ 0 → projectToScreenX tanHalf y z = imageWidth / 2) ∧
    (0 < z → projectToScreenX tanHalf y z =
      pytrunc ((imageWidth : ℚ) / 2 + y / z * ((imageWidth : ℚ) / (2 * tanHalf)))) ∧
    (0 < z → 0 < tanHalf → y1 ≤ y2 →
      projectToScreenX tanHalf y1 z ≤ projectToScreenX tanHalf y2 z) ∧
    (0 < z → projectToScreenX tanHalf 0 z = imageWidth / 2) := by
  refine ⟨?_, ?_, ?_, ?_⟩
  · intro hz
    rw [projectToScreenX, if_pos hz]
  · intro hz
    rw [projectToScreenX, if_neg (not_le.mpr hz)]
  · intro hz ht hy
    rw [projectToScreenX, if_neg (not_le.mpr hz),
        projectToScreenX, if_neg (not_le.mpr hz)]
    apply pytrunc_mono
    have hc : 0 ≤ (imageWidth : ℚ) / (2 * tanHalf) := by
      apply div_nonneg (by norm_num [imageWidth])
      positivity
    have := mul_le_mul_of_nonneg_right (div_le_div_of_nonneg_right hy hz.le) hc
    linarith
  · intro hz
    rw [projectToScreenX, if_neg (not_le.mpr hz)]
    have : ((imageWidth : ℚ) / 2 + 0 / z * ((imageWidth : ℚ) / (2 * tanHalf))) = ((320 : ℤ) : ℚ) := by
      norm_num [imageWidth]
    rw [this, pytrunc_intCast]
    norm_num [imageWidth]

/-- Witness for C4 amended: instantiation at `tanHalf = 1`, `z = 2`,
`y1 = -3 ≤ y2 = 7`; all four clauses hold at concrete inputs. -/
theorem C4_projectX_properties_witness :
    projectToScreenX 1 5 (-1) = imageWidth / 2 ∧
    projectToScreenX 1 1 640 =
      pytrunc ((imageWidth : ℚ) / 2 + 1 / 640 * ((imageWidth : ℚ) / (2 * 1))) ∧
    projectToScreenX 1 (-3) 2 ≤ projectToScreenX 1 7 2 ∧
    projectToScreenX 1 0 2 = imageWidth / 2 := by
  refine ⟨(C4_projectX_properties 1 5 0 0 (-1)).1 (by norm_num),
    (C4_projectX_properties 1 1 0 0 640).2.1 (by norm_num),
    (C4_projectX_properties 1 0 (-3) 7 2).2.2.1 (by norm_num) (by norm_num) (by norm_num),
    (C4_projectX_properties 1 0 0 0 2).2.2.2 (by norm_num)⟩

/-- C5 counterexample: at `tanHalf = 1` (default fov), `depthZ = 1 > 0.01`
and `horizonY = -1000`, the code returns
`int(min(479, -1000 + 240*1.2/1)) = -712`, which is below the claimed
lower clamp `0`; the result is not clamped to `[0, height-1]`. -/
theorem C5_projectY_not_clamped_below :
    projectToScreenY 1 1 (-1000) = -712 ∧ projectToScreenY 1 1 (-1000) < 0 := by
  have h : projectToScreenY 1 1 (-1000) = -712 := by
    rw [projectToScreenY, if_neg (by norm_num)]
    have : min ((imageHeight : ℚ) - 1)
        (((-1000 : ℤ) : ℚ) + (imageHeight : ℚ) / (2 * 1) * cameraHeight / 1) =
        (((-712 : ℤ) : ℚ)) := by
      norm_num [imageHeight, cameraHeight]
    rw [this, pytrunc_intCast]
  exact ⟨h, by rw [h]; norm_num⟩

/-- C5 amended: for `depthZ > 0.01`, `projectToScreenY` returns the
integer truncation of `min(height-1, horizonY + focal*cameraHeight/depthZ)`
with `focal = height / (2*tan(hfov/2))`: only the upper bound
`height - 1` is enforced; no lower clamp at `0` is applied (the result
can be negative for negative `horizonY`), though the result is
nonnegative whenever `horizonY ≥ 0` and `tanHalf > 0`. -/
theorem C5_projectY_properties (tanHalf z : ℚ) (horizon : ℤ) :
    (1/100 < z → projectToScreenY tanHalf z horizon =
      pytrunc (min ((imageHeight : ℚ) - 1)
        ((horizon : ℚ) + (imageHeight : ℚ) / (2 * tanHalf) * cameraHeight / z))) ∧
    (1/100 < z → projectToScreenY tanHalf z horizon ≤ imageHeight - 1) ∧
    (1/100 < z → 0 < tanHalf → 0 ≤ horizon →
      0 ≤ projectToScreenY tanHalf z horizon) := by
  refine ⟨?_, ?_, ?_⟩
  · intro hz
    rw [projectToScreenY, if_neg (not_le.mpr hz)]
  · intro hz
    rw [projectToScreenY, if_neg (not_le.mpr hz)]
    have h1 : min ((imageHeight : ℚ) - 1)
        ((horizon : ℚ) + (imageHeight : ℚ) / (2 * tanHalf) * cameraHeight / z) ≤
        (((imageHeight - 1 : ℤ) : ℚ)) := by
      push_cast
      exact min_le_left _ _
    calc pytrunc _ ≤ pytrunc ((imageHeight - 1 : ℤ) : ℚ) := pytrunc_mono h1
      _ = imageHeight - 1 := pytrunc_intCast _
  · intro hz ht hh
    rw [projectToScreenY, if_neg (not_le.mpr hz)]
    apply pytrunc_nonneg
    apply le_min (by norm_num [imageHeight])
    have hpos : 0 ≤ (imageHeight : ℚ) / (2 * tanHalf) * cameraHeight / z := by
      apply div_nonneg _ (by linarith)
      apply mul_nonneg _ (by norm_num [cameraHeight])
      apply div_nonneg (by norm_num [imageHeight])
      positivity
    have : (0 : ℚ) ≤ (horizon : ℚ) := by exact_mod_cast hh
    linarith

/-- Witness for C5 amended: instantiation at `tanHalf = 1`, `z = 2`,
`horizonY = 266` (the default-geometry horizon row). -/
theorem C5_projectY_properties_witness :
    projectToScreenY 1 2 266 =
      pytrunc (min ((imageHeight : ℚ) - 1)
        (((266 : ℤ) : ℚ) + (imageHeight : ℚ) / (2 * 1) * cameraHeight / 2)) ∧
    projectToScreenY 1 2 266 ≤ imageHeight - 1 ∧
    0 ≤ projectToScreenY 1 2 266 := by
  exact ⟨(C5_projectY_properties 1 2 266).1 (by norm_num),
    (C5_projectY_properties 1 2 266).2.1 (by norm_num),
    (C5_projectY_properties 1 2 266).2.2 (by norm_num) (by norm_num) (by norm_num)⟩

/-- Robot pose fields read by `_render_first_person_frame` (lines
392-395). Because `cos`/`sin` are transcendental, the embedding carries
the values `cosNegTheta = cos(-theta)` and `sinNegTheta = sin(-theta)`
that numpy computes at lines 485-486 directly. -/
structure Pose where
  x : ℚ
  y : ℚ
  cosNegTheta : ℚ
  sinNegTheta : ℚ
deriving Repr, DecidableEq

instance : Inhabited Pose := ⟨⟨0, 0, 1, 0⟩⟩

/-- One `{x, y, velocity}` entry of `obstacle_trajectories`; the renderer
reads only `x` and `y` (lines 450-452). -/
structure TrajPt where
  x : ℚ
  y : ℚ
deriving Repr, DecidableEq

instance : Inhabited TrajPt := ⟨⟨0, 0⟩⟩

/-- One entry of `initial_obstacles` as read at lines 444-459: center,
radius, optional polygon vertices given as two parallel coordinate
lists, and the dynamic flag. -/
structure Obstacle where
  initial_center : ℚ × ℚ
  radius : ℚ
  vertices : Option (List ℚ × List ℚ)
  is_dynamic : Bool
deriving Repr, DecidableEq

/-- World→camera transform of lines 478-492 (repeated at lines 539-545):
`dx = x - robot_x`, `dy = y - robot_y`,
`local_x = dx*cos(-θ) - dy*sin(-θ)`, `local_y = -(dx*sin(-θ) + dy*cos(-θ))`,
`distance = sqrt(dx² + dy²)`; `rt` models `np.sqrt`, applied to the
radicand `dx² + dy²`. -/
def toCam (rt : ℚ → ℚ) (pose : Pose) (p : ℚ × ℚ) : CamPt :=
  { local_x := (p.1 - pose.x) * pose.cosNegTheta - (p.2 - pose.y) * pose.sinNegTheta
    local_y := -((p.1 - pose.x) * pose.sinNegTheta + (p.2 - pose.y) * pose.cosNegTheta)
    distance := rt ((p.1 - pose.x) ^ 2 + (p.2 - pose.y) ^ 2) }

/-- Current obstacle position (lines 447-456): a dynamic obstacle with a
trajectory entry for this step uses that entry, otherwise the initial
center is used. -/
def obsPosition (obs : Obstacle) (traj : List TrajPt) (step : ℕ) : ℚ × ℚ :=
  if obs.is_dynamic ∧ step < traj.length then
    ((traj.getD step default).x, (traj.getD step default).y)
  else obs.initial_center

/-- Polygon world vertices (lines 461-472): the `zip` of the two
coordinate lists, with every vertex shifted by the displacement
current − initial center when the obstacle is dynamic. -/
def polygonWorldVerts (obs : Obstacle) (xs ys : List ℚ) (pos : ℚ × ℚ) : List (ℚ × ℚ) :=
  (xs.zip ys).map fun v =>
    if obs.is_dynamic then
      (v.1 + (pos.1 - obs.initial_center.1), v.2 + (pos.2 - obs.initial_center.2))
    else v

/-- The running `min_distance` of lines 476-493: the minimum of the
vertex distances. The Python loop starts from infinity; since the guard
`len(vertices[0]) >= 3` makes the empty case unreachable, it is mapped
to `0` here. -/
def minVertexDistance : List CamPt → ℚ
  | [] => 0
  | v :: rest => rest.foldl (fun acc p => min acc p.distance) v.distance

/-- One entry of the `obstacles_to_render` list (lines 530-536 and
556-564); `obsIdx` records which `initial_obstacles` entry the item's
`obs_info` reference points at. -/
inductive RenderItem where
  | polygon (edges : List (CamPt × CamPt)) (distance : ℚ) (obsIdx : ℕ) (isDyn : Bool)
  | circle (local_x local_y distance radius : ℚ) (obsIdx : ℕ) (isDyn : Bool)
deriving Repr, DecidableEq

/-- Representative distance of a render entry: the sort key of line 567. -/
def RenderItem.distance : RenderItem → ℚ
  | .polygon _ d _ _ => d
  | .circle _ _ d _ _ _ => d

/-- Index of the `initial_obstacles` entry a render item refers to. -/
def RenderItem.obsIdx : RenderItem → ℕ
  | .polygon _ _ k _ => k
  | .circle _ _ _ _ k _ => k

/-- Polygon branch of the collection loop (lines 461-536): transform the
shifted vertices, clip, and emit an entry whose representative distance
is the minimum vertex distance, provided some edge is visible. -/
def polygonItem (rt : ℚ → ℚ) (pose : Pose) (obs : Obstacle) (xs ys : List ℚ)
    (pos : ℚ × ℚ) (k : ℕ) : Option RenderItem :=
  let camVerts := (polygonWorldVerts obs xs ys pos).map (toCam rt pose)
  if visibleEdges camVerts = [] then none
  else some (.polygon (visibleEdges camVerts) (minVertexDistance camVerts) k obs.is_dynamic)

/-- Circle branch of the collection loop (lines 537-564): `angOk dx dy`
models the wrapped relative-angle test
`|atan2(sin(atan2(dy,dx) - θ), cos(atan2(dy,dx) - θ))| < fov/2` of lines
548-555, which is transcendental in `dx`, `dy`. -/
def circleItem (rt : ℚ → ℚ) (angOk : ℚ → ℚ → Bool) (pose : Pose) (obs : Obstacle)
    (pos : ℚ × ℚ) (k : ℕ) : Option RenderItem :=
  let c := toCam rt pose pos
  if nearEps < c.local_x ∧ c.distance < 50 ∧ angOk (pos.1 - pose.x) (pos.2 - pose.y) then
    some (.circle c.local_x c.local_y c.distance obs.radius k obs.is_dynamic)
  else none

/-- One iteration of the collection loop over `obstacle_trajectories`
(lines 438-564): skip ids not indexing `initial_obstacles`, then branch
on whether a well-formed polygon vertex set is present. -/
def collectBody (rt : ℚ → ℚ) (angOk : ℚ → ℚ → Bool) (pose : Pose)
    (obs : Obstacle) (traj : List TrajPt) (step : ℕ) (k : ℕ) :
    Option RenderItem :=
  match obs.vertices with
  | some vs =>
      if 3 ≤ vs.1.length then
        polygonItem rt pose obs vs.1 vs.2 (obsPosition obs traj step) k
      else circleItem rt angOk pose obs (obsPosition obs traj step) k
  | none => circleItem rt angOk pose obs (obsPosition obs traj step) k

/-- One iteration of the collection loop, continued: ids not indexing
`initial_obstacles` are skipped by the `continue` of line 442. -/
def collectOne (rt : ℚ → ℚ) (angOk : ℚ → ℚ → Bool) (pose : Pose)
    (obstacles : List Obstacle) (step : ℕ) (entry : ℕ × List TrajPt) :
    Option RenderItem :=
  if h : entry.1 < obstacles.length then
    collectBody rt angOk pose (obstacles.get ⟨entry.1, h⟩) entry.2 step entry.1
  else none

/-- Painter's-algorithm order: `a` before `b` when `a` is at least as
far; `sort(key=lambda x: x["distance"], reverse=True)` at line 567 is a
stable sort by this relation. -/
def depthGE (a b : RenderItem) : Prop := b.distance ≤ a.distance

instance : DecidableRel depthGE :=
  fun a b => inferInstanceAs (Decidable (b.distance ≤ a.distance))

instance : IsTotal RenderItem depthGE := ⟨fun a b => le_total b.distance a.distance⟩

instance : IsTrans RenderItem depthGE := ⟨fun _ _ _ h1 h2 => le_trans h2 h1⟩

/-- The `obstacles_to_render` list: collection over the trajectory map
(lines 436-564) followed by the stable descending sort of line 567. -/
def obstaclesToRender (rt : ℚ → ℚ) (angOk : ℚ → ℚ → Bool) (pose : Pose)
    (trajs : List (ℕ × List TrajPt)) (obstacles : List Obstacle) (step : ℕ) :
    List RenderItem :=
  List.insertionSort depthGE (trajs.filterMap (collectOne rt angOk pose obstacles step))

/-- The episode-record fields read by `render_first_person_video`
(lines 244-246). -/
structure EpisodeData where
  robot_trajectory : List Pose
  obstacle_trajectories : List (ℕ × List TrajPt)
  initial_obstacles : List Obstacle

/-- Geometry content of `render_first_person_video` (lines 235-348):
`none` exactly on the empty-trajectory early return of lines 248-250
(where the code prints a diagnostic and returns `None`); otherwise one
depth-sorted obstacle list per trajectory step. `angOk` gives the
per-pose circle angular test of `circleItem`. -/
def renderFirstPersonVideo (rt : ℚ → ℚ) (angOk : Pose → ℚ → ℚ → Bool)
    (ep : EpisodeData) : Option (List (List RenderItem)) :=
  if ep.robot_trajectory = [] then none
  else
    some ((List.range ep.robot_trajectory.length).map fun step =>
      obstaclesToRender rt (angOk (ep.robot_trajectory.getD step default))
        (ep.robot_trajectory.getD step default)
        ep.obstacle_trajectories ep.initial_obstacles step)

/-- A collected render item always carries the id of the trajectory
entry that produced it. -/
theorem collectOne_obsIdx {rt : ℚ → ℚ} {angOk : ℚ → ℚ → Bool} {pose : Pose}
    {obstacles : List Obstacle} {step : ℕ} {entry : ℕ × List TrajPt}
    {it : RenderItem}
    (h : collectOne rt angOk pose obstacles step entry = some it) :
    it.obsIdx = entry.1 := by
  rw [collectOne] at h
  split at h
  · rw [collectBody] at h
    split at h
    · split at h
      · rw [polygonItem] at h
        split at h
        · exact absurd h (by simp)
        · cases h
          rfl
      · rw [circleItem] at h
        split at h
        · cases h
          rfl
        · exact absurd h (by simp)
    · rw [circleItem] at h
      split at h
      · cases h
        rfl
      · exact absurd h (by simp)
  · exact absurd h (by simp)

/-- Square-root model for the depth-ordering example: the three radicands
`25`, `100`, `225` arising from obstacle centers at ranges `5`, `10`,
`15` map to those ranges. -/
def rtEx : ℚ → ℚ :=
  fun q => if q = 25 then 5 else if q = 100 then 10 else if q = 225 then 15 else 0

/-- Angular-visibility model that accepts everything (all three example
obstacles are straight ahead). -/
def angTrue : ℚ → ℚ → Bool := fun _ _ => true

/-- Example pose: robot at the origin, heading `theta = 0`. -/
def poseEx : Pose := ⟨0, 0, 1, 0⟩

/-- Example obstacles: three static circles straight ahead at ranges
`5`, `15`, `10`. -/
def obstaclesEx : List Obstacle :=
  [⟨(5, 0), 1, none, false⟩, ⟨(15, 0), 1, none, false⟩, ⟨(10, 0), 1, none, false⟩]

/-- Trajectory map naming all three example obstacles. -/
def trajsEx : List (ℕ × List TrajPt) := [(0, []), (1, []), (2, [])]

/-- The render entry produced for an example circle at range `d`. -/
def circEx (d : ℚ) (k : ℕ) : RenderItem := .circle d 0 d 1 k false

/-- C3: each obstacle passing its visibility test gets one representative
distance — the minimum vertex distance for polygons, the straight-line
range to the center for circles — and the render list is sorted in
descending order of that distance (a permutation of the collected
entries, strictly descending whenever the representative distances are
pairwise distinct); for representative distances `{5, 15, 10}` the
rasterization order is `[15, 10, 5]`. -/
theorem C3_painters_algorithm_order (rt : ℚ → ℚ) (angOk : ℚ → ℚ → Bool)
    (pose : Pose) (trajs : List (ℕ × List TrajPt)) (obstacles : List Obstacle)
    (step : ℕ) :
    (obstaclesToRender rt angOk pose trajs obstacles step).Pairwise
      (fun a b => b.distance ≤ a.distance) ∧
    (obstaclesToRender rt angOk pose trajs obstacles step).Perm
      (trajs.filterMap (collectOne rt angOk pose obstacles step)) ∧
    (∀ entry edges d k dyn,
      collectOne rt angOk pose obstacles step entry = some (.polygon edges d k dyn) →
      ∃ (h : entry.1 < obstacles.length) (xs ys : List ℚ),
        (obstacles.get ⟨entry.1, h⟩).vertices = some (xs, ys) ∧
        d = minVertexDistance
          ((polygonWorldVerts (obstacles.get ⟨entry.1, h⟩) xs ys
            (obsPosition (obstacles.get ⟨entry.1, h⟩) entry.2 step)).map
            (toCam rt pose))) ∧
    (∀ entry lx ly d r k dyn,
      collectOne rt angOk pose obstacles step entry = some (.circle lx ly d r k dyn) →
      ∃ (h : entry.1 < obstacles.length),
        d = (toCam rt pose
          (obsPosition (obstacles.get ⟨entry.1, h⟩) entry.2 step)).distance) ∧
    ((trajs.filterMap (collectOne rt angOk pose obstacles step)).Pairwise
      (fun a b => a.distance ≠ b.distance) →
      (obstaclesToRender rt angOk pose trajs obstacles step).Pairwise
        (fun a b => b.distance < a.distance)) ∧
    (obstaclesToRender rtEx angTrue poseEx trajsEx obstaclesEx 0).map
      RenderItem.distance = [15, 10, 5] := by
  refine ⟨List.sorted_insertionSort depthGE _, List.perm_insertionSort depthGE _,
    ?_, ?_, ?_, ?_⟩
  · intro entry edges d k dyn h
    rw [collectOne] at h
    split at h
    case isTrue hlt =>
      refine ⟨hlt, ?_⟩
      rw [collectBody] at h
      split at h
      case h_1 vs hvs =>
        split at h
        · rw [polygonItem] at h
          split at h
          · exact absurd h (by simp)
          · cases h
            exact ⟨vs.1, vs.2, hvs, rfl⟩
        · rw [circleItem] at h
          split at h
          · exact absurd h (by simp)
          · exact absurd h (by simp)
      case h_2 hvs =>
        rw [circleItem] at h
        split at h
        · exact absurd h (by simp)
        · exact absurd h (by simp)
    case isFalse => exact absurd h (by simp)
  · intro entry lx ly d r k dyn h
    rw [collectOne] at h
    split at h
    case isTrue hlt =>
      refine ⟨hlt, ?_⟩
      rw [collectBody] at h
      split at h
      case h_1 vs hvs =>
        split at h
        · rw [polygonItem] at h
          split at h
          · exact absurd h (by simp)
          · exact absurd h (by simp)
        · rw [circleItem] at h
          split at h
          · cases h
            rfl
          · exact absurd h (by simp)
      case h_2 hvs =>
        rw [circleItem] at h
        split at h
        · cases h
          rfl
        · exact absurd h (by simp)
    case isFalse => exact absurd h (by simp)
  · intro hne
    have hsorted : (obstaclesToRender rt angOk pose trajs obstacles step).Pairwise
        (fun a b => b.distance ≤ a.distance) :=
      List.sorted_insertionSort depthGE _
    have hne2 : (obstaclesToRender rt angOk pose trajs obstacles step).Pairwise
        (fun a b => a.distance ≠ b.distance) :=
      ((List.perm_insertionSort depthGE _).pairwise_iff
        (fun h => h.symm)).mpr hne
    exact (hsorted.and hne2).imp fun h => lt_of_le_of_ne h.1 (Ne.symm h.2)
  · have hlist : trajsEx.filterMap (collectOne rtEx angTrue poseEx obstaclesEx 0) =
        [circEx 5 0, circEx 15 1, circEx 10 2] := by
      norm_num [trajsEx, List.filterMap_cons, collectOne, collectBody,
        obstaclesEx, obsPosition, circleItem, toCam, rtEx, poseEx, nearEps,
        angTrue, circEx]
    rw [obstaclesToRender, hlist]
    norm_num [List.insertionSort, List.orderedInsert, depthGE, circEx,
      RenderItem.distance]

/-- Square-root model for the polygon-distance witness: radicands of the
three vertices `(1,0)`, `(2,0)`, `(1,1)` seen from the origin. -/
def rtP : ℚ → ℚ :=
  fun q => if q = 1 then 1 else if q = 4 then 2 else if q = 2 then 3/2 else 0

/-- A static triangle obstacle ahead of the robot, for the
polygon-distance witness. -/
def obstaclesP : List Obstacle :=
  [⟨(0, 0), 1, some ([1, 2, 1], [0, 0, 1]), false⟩]

/-- Witness for C3: instantiation of the representative-distance clauses
at concrete inputs — the circle at range `5` of `obstaclesEx` gets
distance `5` (straight-line range), and the triangle of `obstaclesP`
gets distance `1` (its minimum vertex distance). -/
theorem C3_painters_algorithm_order_witness :
    (∃ (h : (0 : ℕ) < obstaclesEx.length),
      (5 : ℚ) = (toCam rtEx poseEx
        (obsPosition (obstaclesEx.get ⟨0, h⟩) [] 0)).distance) ∧
    (∃ (h : (0 : ℕ) < obstaclesP.length) (xs ys : List ℚ),
      (obstaclesP.get ⟨0, h⟩).vertices = some (xs, ys) ∧
      (1 : ℚ) = minVertexDistance
        ((polygonWorldVerts (obstaclesP.get ⟨0, h⟩) xs ys
          (obsPosition (obstaclesP.get ⟨0, h⟩) [] 0)).map (toCam rtP poseEx))) := by
  constructor
  · refine (C3_painters_algorithm_order rtEx angTrue poseEx trajsEx obstaclesEx 0).2.2.2.1
      (0, []) 5 0 5 1 0 false ?_
    norm_num [collectOne, collectBody, obstaclesEx, obsPosition, circleItem,
      toCam, rtEx, poseEx, nearEps, angTrue]
  · refine (C3_painters_algorithm_order rtP angTrue poseEx [(0, [])] obstaclesP 0).2.2.1
      (0, []) (visibleEdges ((polygonWorldVerts (obstaclesP.get ⟨0, by norm_num [obstaclesP]⟩)
        [1, 2, 1] [0, 0, 1] (0, 0)).map (toCam rtP poseEx))) 1 0 false ?_
    norm_num [collectOne, collectBody, obstaclesP, obsPosition, polygonItem,
      polygonWorldVerts, minVertexDistance, toCam, rtP, poseEx, visibleEdges,
      ringEdges, clipEdge, nearEps, List.range_succ, List.filterMap_cons]
    exact fun h => absurd h (by simp)

/-- C6: for a dynamic polygon obstacle at a step covered by its
trajectory, every rendered world vertex equals the initial vertex offset
by exactly `trajectory_center(step) - initial_center`; the offset is
recomputed from the initial vertex lists `xs`, `ys` each frame, never
accumulated. -/
theorem C6_dynamic_vertex_translation (obs : Obstacle) (xs ys : List ℚ)
    (traj : List TrajPt) (step : ℕ)
    (hdyn : obs.is_dynamic = true) (hstep : step < traj.length) :
    polygonWorldVerts obs xs ys (obsPosition obs traj step) =
      (xs.zip ys).map (fun v =>
        (v.1 + ((traj.getD step default).x - obs.initial_center.1),
         v.2 + ((traj.getD step default).y - obs.initial_center.2))) := by
  rw [obsPosition, if_pos ⟨hdyn, hstep⟩, polygonWorldVerts]
  simp [hdyn]

/-- Witness for C6: a dynamic triangle with `initial_center = (0,0)` and
trajectory position `(2,3)` at step 0 has every vertex shifted by
exactly `(+2,+3)`. -/
theorem C6_dynamic_vertex_translation_witness :
    polygonWorldVerts ⟨(0, 0), 1, some ([1, 2, 0], [1, 0, 2]), true⟩
      [1, 2, 0] [1, 0, 2]
      (obsPosition ⟨(0, 0), 1, some ([1, 2, 0], [1, 0, 2]), true⟩ [⟨2, 3⟩] 0) =
      [(3, 4), (4, 3), (2, 5)] := by
  rw [C6_dynamic_vertex_translation ⟨(0, 0), 1, some ([1, 2, 0], [1, 0, 2]), true⟩
    [1, 2, 0] [1, 0, 2] [⟨2, 3⟩] 0 rfl (by norm_num)]
  norm_num

/-- C8: a trajectory-map entry whose id does not index
`initial_obstacles` produces no render item (the `continue` at line
442), and the frame's render list is exactly what it would be without
that entry — the rest of the episode is unaffected. -/
theorem C8_out_of_range_obstacle_skipped (rt : ℚ → ℚ) (angOk : ℚ → ℚ → Bool)
    (pose : Pose) (obstacles : List Obstacle) (step k : ℕ) (t : List TrajPt)
    (trajs : List (ℕ × List TrajPt)) (hk : obstacles.length ≤ k) :
    collectOne rt angOk pose obstacles step (k, t) = none ∧
    obstaclesToRender rt angOk pose ((k, t) :: trajs) obstacles step =
      obstaclesToRender rt angOk pose trajs obstacles step := by
  have h1 : collectOne rt angOk pose obstacles step (k, t) = none := by
    rw [collectOne, dif_neg (not_lt.mpr hk)]
  refine ⟨h1, ?_⟩
  rw [obstaclesToRender, obstaclesToRender]
  simp only [List.filterMap_cons, h1]

/-- Witness for C8: obstacle id `5` with only three obstacles defined is
skipped and leaves the example frame unchanged. -/
theorem C8_out_of_range_obstacle_skipped_witness :
    collectOne rtEx angTrue poseEx obstaclesEx 0 (5, []) = none ∧
    obstaclesToRender rtEx angTrue poseEx ((5, []) :: trajsEx) obstaclesEx 0 =
      obstaclesToRender rtEx angTrue poseEx trajsEx obstaclesEx 0 :=
  C8_out_of_range_obstacle_skipped rtEx angTrue poseEx obstaclesEx 0 5 [] trajsEx
    (by norm_num [obstaclesEx])

/-- C9: an episode whose robot trajectory is empty yields no video
artifact (the early return of lines 248-250), while any nonempty
trajectory yields one rendered frame per step — the model is a total
function, so the empty case cannot crash the process. -/
theorem C9_empty_trajectory_no_video (rt : ℚ → ℚ) (angOk : Pose → ℚ → ℚ → Bool)
    (ep : EpisodeData) :
    (ep.robot_trajectory = [] → renderFirstPersonVideo rt angOk ep = none) ∧
    (ep.robot_trajectory ≠ [] → ∃ frames,
      renderFirstPersonVideo rt angOk ep = some frames ∧
      frames.length = ep.robot_trajectory.length) := by
  constructor
  · intro h
    rw [renderFirstPersonVideo, if_pos h]
  · intro h
    rw [renderFirstPersonVideo, if_neg h]
    exact ⟨_, rfl, by simp⟩

/-- Witness for C9: the empty-trajectory episode returns `none`; a
one-step episode returns one frame. -/
theorem C9_empty_trajectory_no_video_witness :
    renderFirstPersonVideo rtEx (fun _ => angTrue) ⟨[], trajsEx, obstaclesEx⟩ = none ∧
    ∃ frames,
      renderFirstPersonVideo rtEx (fun _ => angTrue) ⟨[poseEx], trajsEx, obstaclesEx⟩ =
        some frames ∧ frames.length = 1 := by
  constructor
  · exact (C9_empty_trajectory_no_video rtEx (fun _ => angTrue)
      ⟨[], trajsEx, obstaclesEx⟩).1 rfl
  · exact (C9_empty_trajectory_no_video rtEx (fun _ => angTrue)
      ⟨[poseEx], trajsEx, obstaclesEx⟩).2 (by simp)

/-- C10: every item in a frame's render list refers to an obstacle id
that occurs as a key of `obstacle_trajectories`; an `initial_obstacles`
entry with no trajectory-map entry is never drawn, polygon or circle,
static or dynamic, because the collection loop iterates only over
`obstacle_trajectories.items()` (line 438). -/
theorem C10_only_trajectory_keys_rendered (rt : ℚ → ℚ) (angOk : ℚ → ℚ → Bool)
    (pose : Pose) (trajs : List (ℕ × List TrajPt)) (obstacles : List Obstacle)
    (step : ℕ) (it : RenderItem)
    (hit : it ∈ obstaclesToRender rt angOk pose trajs obstacles step) :
    it.obsIdx ∈ trajs.map Prod.fst := by
  have hmem : it ∈ trajs.filterMap (collectOne rt angOk pose obstacles step) :=
    (List.perm_insertionSort depthGE _).mem_iff.mp hit
  obtain ⟨entry, hentry, hcoll⟩ := List.mem_filterMap.mp hmem
  rw [collectOne_obsIdx hcoll]
  exact List.mem_map.mpr ⟨entry, hentry, rfl⟩

/-- Witness for C10: the nearest example circle is in the render list
and its id `0` is among the trajectory keys. -/
theorem C10_only_trajectory_keys_rendered_witness :
    (circEx 5 0).obsIdx ∈ trajsEx.map Prod.fst := by
  refine C10_only_trajectory_keys_rendered rtEx angTrue poseEx trajsEx obstaclesEx 0
    (circEx 5 0) ?_
  have hlist : obstaclesToRender rtEx angTrue poseEx trajsEx obstaclesEx 0 =
      [circEx 15 1, circEx 10 2, circEx 5 0] := by
    norm_num [obstaclesToRender, trajsEx, List.filterMap_cons, collectOne,
      collectBody, obstaclesEx, obsPosition, circleItem, toCam, rtEx, poseEx,
      nearEps, angTrue, circEx, List.insertionSort, List.orderedInsert, depthGE,
      RenderItem.distance]
  rw [hlist]
  simp

/-- Camera-space transform used inside `_draw_ground_grid` (the local
`world_to_camera` of lines 592-599): same rotation as `toCam` but
returning only `(local_x, local_y)`. -/
def toCamXY (pose : Pose) (p : ℚ × ℚ) : ℚ × ℚ :=
  ((p.1 - pose.x) * pose.cosNegTheta - (p.2 - pose.y) * pose.sinNegTheta,
   -((p.1 - pose.x) * pose.sinNegTheta + (p.2 - pose.y) * pose.cosNegTheta))

/-- Camera-frame image of a world-direction vector under the rotation
part of `toCamXY`. -/
def rotDir (pose : Pose) (d : ℚ × ℚ) : ℚ × ℚ :=
  (d.1 * pose.cosNegTheta - d.2 * pose.sinNegTheta,
   -(d.1 * pose.sinNegTheta + d.2 * pose.cosNegTheta))

/-- The `j`-th point of an affine family in camera space; the grid
samples of one world grid line (world points `w0 + j*wd`, lines 609-618
and 653-662) are such a family with `c = toCamXY pose w0` and
`d = rotDir pose wd`. -/
def affineSample (c d : ℚ × ℚ) (j : ℤ) : ℚ × ℚ :=
  (c.1 + j * d.1, c.2 + j * d.2)

/-- The per-sample visibility test of `_draw_ground_grid` (lines
621-628): forward depth strictly between `0.1` and `view_distance = 50`,
straight-line distance `sqrt(lx² + ly²)` below `50` (`rt` models
`np.sqrt`), the angular test `|atan2(ly, lx)| < fov_rad/2` — which for
`lx > 0` and `0 < fov < 180°` is equivalent to `|ly| < lx * tan(fov/2)`,
written here with the `tanHalf` parameter — and the projected pixel
inside the image with its row at or below the horizon. -/
def gridVisible (tanHalf : ℚ) (rt : ℚ → ℚ) (horizon : ℤ) (p : ℚ × ℚ) : Prop :=
  1/10 < p.1 ∧ p.1 < 50 ∧ rt (p.1 ^ 2 + p.2 ^ 2) < 50 ∧ |p.2| < p.1 * tanHalf ∧
  0 ≤ projectToScreenX tanHalf p.2 p.1 ∧ projectToScreenX tanHalf p.2 p.1 < imageWidth ∧
  horizon ≤ projectToScreenY tanHalf p.1 horizon ∧
  projectToScreenY tanHalf p.1 horizon < imageHeight

instance (tanHalf : ℚ) (rt : ℚ → ℚ) (horizon : ℤ) (p : ℚ × ℚ) :
    Decidable (gridVisible tanHalf rt horizon p) := by
  unfold gridVisible
  infer_instance

/-- The `points` list built for one grid line (lines 613-629): each
visible sample contributes `[screen_x, screen_y, local_x]`. -/
def gridLinePoints (tanHalf : ℚ) (rt : ℚ → ℚ) (horizon : ℤ)
    (samples : List (ℚ × ℚ)) : List (ℤ × ℤ × ℚ) :=
  samples.filterMap fun p =>
    if gridVisible tanHalf rt horizon p then
      some (projectToScreenX tanHalf p.2 p.1, projectToScreenY tanHalf p.1 horizon, p.1)
    else none

/-- The stable ascending sort by the third component (`local_x`),
modelling `sorted(points, key=lambda p: p[2])` at line 633. -/
def sortByDepth (pts : List (ℤ × ℤ × ℚ)) : List (ℤ × ℤ × ℚ) :=
  List.insertionSort (fun a b => a.2.2 ≤ b.2.2) pts

/-- The segments drawn at lines 641-650: one `cv2.line` per consecutive
pair of the sorted point list. -/
def gridSegments (pts : List (ℤ × ℤ × ℚ)) : List ((ℤ × ℤ × ℚ) × (ℤ × ℤ × ℚ)) :=
  pts.zip pts.tail

/-- Strict lower bounds survive convex combination. -/
theorem convex_lt_lower {c xa xb t : ℚ} (ha : c < xa) (hb : c < xb)
    (h0 : 0 ≤ t) (h1 : t ≤ 1) : c < (1 - t) * xa + t * xb := by
  rcases eq_or_lt_of_le h1 with rfl | h1
  · nlinarith
  · nlinarith [mul_pos (sub_pos.mpr h1) (sub_pos.mpr ha),
      mul_nonneg h0 (sub_pos.mpr hb).le]

/-- Strict upper bounds survive convex combination. -/
theorem convex_lt_upper {c xa xb t : ℚ} (ha : xa < c) (hb : xb < c)
    (h0 : 0 ≤ t) (h1 : t ≤ 1) : (1 - t) * xa + t * xb < c := by
  rcases eq_or_lt_of_le h1 with rfl | h1
  · nlinarith
  · nlinarith [mul_pos (sub_pos.mpr h1) (sub_pos.mpr ha),
      mul_nonneg h0 (sub_pos.mpr hb).le]

/-- Strict open balls around the origin are convex. -/
theorem convex_sq_sum {xa ya xb yb t R : ℚ} (ha : xa ^ 2 + ya ^ 2 < R)
    (hb : xb ^ 2 + yb ^ 2 < R) (h0 : 0 ≤ t) (h1 : t ≤ 1) :
    ((1 - t) * xa + t * xb) ^ 2 + ((1 - t) * ya + t * yb) ^ 2 < R := by
  have e1 : ((1 - t) * xa + t * xb) ^ 2 ≤ (1 - t) * xa ^ 2 + t * xb ^ 2 := by
    nlinarith [mul_nonneg (mul_nonneg h0 (sub_nonneg.mpr h1)) (sq_nonneg (xa - xb))]
  have e2 : ((1 - t) * ya + t * yb) ^ 2 ≤ (1 - t) * ya ^ 2 + t * yb ^ 2 := by
    nlinarith [mul_nonneg (mul_nonneg h0 (sub_nonneg.mpr h1)) (sq_nonneg (ya - yb))]
  have e3 : (1 - t) * (xa ^ 2 + ya ^ 2) + t * (xb ^ 2 + yb ^ 2) < R :=
    convex_lt_upper ha hb h0 h1
  nlinarith [e1, e2, e3]

/-- Truncation is nonnegative exactly on `(-1, ∞)`. -/
theorem pytrunc_nonneg_iff (q : ℚ) : 0 ≤ pytrunc q ↔ -1 < q := by
  unfold pytrunc
  rcases lt_or_le q 0 with h | h
  · rw [if_pos h]
    constructor
    · intro h2
      have h3 : (-1 : ℤ) < ⌈q⌉ := by omega
      have := Int.lt_ceil.mp h3
      exact_mod_cast this
    · intro h2
      have : (-1 : ℤ) < ⌈q⌉ := Int.lt_ceil.mpr (by exact_mod_cast h2)
      omega
  · rw [if_neg (not_lt.mpr h)]
    constructor
    · intro _
      linarith
    · intro _
      exact Int.floor_nonneg.mpr h

/-- Truncation respects strict positive integer upper bounds. -/
theorem pytrunc_lt_iff {q : ℚ} {n : ℤ} (hn : 0 < n) : pytrunc q < n ↔ q < n := by
  unfold pytrunc
  rcases lt_or_le q 0 with h | h
  · rw [if_pos h]
    constructor
    · intro _
      calc q < 0 := h
        _ ≤ n := by exact_mod_cast hn.le
    · intro _
      calc ⌈q⌉ ≤ 0 := Int.ceil_le.mpr (by exact_mod_cast h.le)
        _ < n := hn
  · rw [if_neg (not_lt.mpr h)]
    exact Int.floor_lt

/-- Truncation respects integer lower bounds. -/
theorem int_le_pytrunc {n : ℤ} {v : ℚ} (h : (n : ℚ) ≤ v) : n ≤ pytrunc v := by
  unfold pytrunc
  rcases lt_or_le v 0 with hv | hv
  · rw [if_pos hv]
    exact le_trans (Int.le_floor.mpr h) (Int.floor_le_ceil v)
  · rw [if_neg (not_lt.mpr hv)]
    exact Int.le_floor.mpr h

/-- The screen-column test `0 <= screen_x < image_width` of line 628,
rewritten as two linear inequalities in `(local_x, local_y)` (valid for
positive depth and positive `tanHalf`). -/
theorem sxBounds_iff (tanHalf y z : ℚ) (hz : 0 < z) (ht : 0 < tanHalf) :
    (0 ≤ projectToScreenX tanHalf y z ∧ projectToScreenX tanHalf y z < imageWidth) ↔
    (-(z * tanHalf) < 320 * (z * tanHalf) + 320 * y ∧
      320 * (z * tanHalf) + 320 * y < 640 * (z * tanHalf)) := by
  rw [projectToScreenX, if_neg (not_le.mpr hz), pytrunc_nonneg_iff,
    pytrunc_lt_iff (show (0 : ℤ) < imageWidth by norm_num [imageWidth])]
  have hB : 0 < z * tanHalf := mul_pos hz ht
  have key : (imageWidth : ℚ) / 2 + y / z * ((imageWidth : ℚ) / (2 * tanHalf)) =
      (320 * (z * tanHalf) + 320 * y) / (z * tanHalf) := by
    rw [imageWidth]
    push_cast
    field_simp
    ring
  rw [key, lt_div_iff₀ hB, div_lt_iff₀ hB]
  rw [show ((imageWidth : ℤ) : ℚ) = 640 by norm_num [imageWidth]]
  constructor
  · rintro ⟨h1, h2⟩
    exact ⟨by linarith, h2⟩
  · rintro ⟨h1, h2⟩
    exact ⟨by linarith, h2⟩

/-- The screen-row test `horizon_y <= screen_y < image_height` of line
628: for depth above the `0.01` guard it does not depend on the sample
at all — it holds iff the horizon row is on the screen. -/
theorem syBounds_iff (tanHalf z : ℚ) (horizon : ℤ) (hz : 1/100 < z)
    (ht : 0 < tanHalf) :
    (horizon ≤ projectToScreenY tanHalf z horizon ∧
      projectToScreenY tanHalf z horizon < imageHeight) ↔ horizon ≤ 479 := by
  have h0z : (0 : ℚ) < z := lt_trans (by norm_num) hz
  rw [projectToScreenY, if_neg (not_le.mpr hz)]
  have hc : 0 < (imageHeight : ℚ) / (2 * tanHalf) * cameraHeight / z := by
    apply div_pos _ h0z
    apply mul_pos _ (by norm_num [cameraHeight])
    apply div_pos (by norm_num [imageHeight])
    positivity
  have hub : pytrunc (min ((imageHeight : ℚ) - 1)
      ((horizon : ℚ) + (imageHeight : ℚ) / (2 * tanHalf) * cameraHeight / z)) ≤ 479 := by
    calc pytrunc (min ((imageHeight : ℚ) - 1) _) ≤ pytrunc ((imageHeight : ℚ) - 1) :=
          pytrunc_mono (min_le_left _ _)
      _ = 479 := by
          rw [show ((imageHeight : ℚ) - 1) = ((479 : ℤ) : ℚ) by norm_num [imageHeight],
            pytrunc_intCast]
  constructor
  · rintro ⟨h1, _⟩
    exact le_trans h1 hub
  · intro hh
    refine ⟨?_, lt_of_le_of_lt hub (by norm_num [imageHeight])⟩
    apply int_le_pytrunc
    apply le_min
    · rw [show ((imageHeight : ℚ) - 1) = ((479 : ℤ) : ℚ) by norm_num [imageHeight]]
      exact_mod_cast hh
    · linarith

/-- Both endpoints of a consecutive pair belong to the original list. -/
theorem mem_of_mem_zip_tail {α : Type} {l : List α} {seg : α × α}
    (h : seg ∈ l.zip l.tail) : seg.1 ∈ l ∧ seg.2 ∈ l :=
  ⟨(List.of_mem_zip h).1, List.tail_subset l (List.of_mem_zip h).2⟩

/-- C7: the ground-grid renderer keeps only samples passing the full
visibility test (forward depth in `(0.1, 50)`, range below the view
distance, inside the half field of view, projected pixel on screen), and
it draws segments only between consecutive entries of the kept list; the
camera-space samples of one world grid line form an affine family, and
the visibility test is convex along such a family, so no sample lying
between the two endpoints of a drawn segment can have failed the test —
the renderer never bridges across an invisible sample. -/
theorem C7_ground_grid_visibility (tanHalf : ℚ) (rt : ℚ → ℚ) (horizon : ℤ)
    (pose : Pose) (w0 wd : ℚ × ℚ) (samples : List (ℚ × ℚ)) (c d : ℚ × ℚ)
    (i j k : ℤ) :
    (∀ m : ℤ, toCamXY pose (w0.1 + m * wd.1, w0.2 + m * wd.2) =
      affineSample (toCamXY pose w0) (rotDir pose wd) m) ∧
    (∀ pt ∈ gridLinePoints tanHalf rt horizon samples,
      ∃ p ∈ samples, gridVisible tanHalf rt horizon p ∧
        pt = (projectToScreenX tanHalf p.2 p.1,
          projectToScreenY tanHalf p.1 horizon, p.1)) ∧
    (∀ seg ∈ gridSegments (sortByDepth (gridLinePoints tanHalf rt horizon samples)),
      seg.1 ∈ gridLinePoints tanHalf rt horizon samples ∧
      seg.2 ∈ gridLinePoints tanHalf rt horizon samples) ∧
    (0 < tanHalf →
      (∀ q : ℚ, 0 ≤ q → (rt q < 50 ↔ q < 2500)) →
      i ≤ j → j ≤ k →
      gridVisible tanHalf rt horizon (affineSample c d i) →
      gridVisible tanHalf rt horizon (affineSample c d k) →
      gridVisible tanHalf rt horizon (affineSample c d j)) := by
  refine ⟨?_, ?_, ?_, ?_⟩
  · intro m
    refine Prod.ext ?_ ?_ <;> simp [toCamXY, affineSample, rotDir] <;> ring
  · intro pt hpt
    rw [gridLinePoints] at hpt
    obtain ⟨p, hp, heq⟩ := List.mem_filterMap.mp hpt
    split at heq
    case isTrue hv =>
      cases heq
      exact ⟨p, hp, hv, rfl⟩
    case isFalse => exact absurd heq (by simp)
  · intro seg hseg
    rw [gridSegments] at hseg
    have h2 := mem_of_mem_zip_tail hseg
    have hperm := List.perm_insertionSort (fun a b : ℤ × ℤ × ℚ => a.2.2 ≤ b.2.2)
      (gridLinePoints tanHalf rt horizon samples)
    exact ⟨hperm.mem_iff.mp h2.1, hperm.mem_iff.mp h2.2⟩
  · intro ht hrt hij hjk hvi hvk
    rcases eq_or_lt_of_le (le_trans hij hjk) with heq | hik
    · have hj : j = i := by omega
      rw [hj]
      exact hvi
    · set a := affineSample c d i with ha
      set b := affineSample c d k with hb
      set m := affineSample c d j with hmdef
      have hki : (0 : ℚ) < (k : ℚ) - (i : ℚ) := by
        rw [sub_pos]
        exact_mod_cast hik
      set t : ℚ := ((j : ℚ) - (i : ℚ)) / ((k : ℚ) - (i : ℚ)) with htdef
      have ht0 : 0 ≤ t := by
        apply div_nonneg _ hki.le
        rw [sub_nonneg]
        exact_mod_cast hij
      have ht1 : t ≤ 1 := by
        rw [htdef, div_le_one hki]
        have hjq : (j : ℚ) ≤ (k : ℚ) := by exact_mod_cast hjk
        linarith
      have hm1 : m.1 = (1 - t) * a.1 + t * b.1 := by
        rw [ha, hb, hmdef, htdef]
        simp only [affineSample]
        field_simp
        ring
      have hm2 : m.2 = (1 - t) * a.2 + t * b.2 := by
        rw [ha, hb, hmdef, htdef]
        simp only [affineSample]
        field_simp
        ring
      rw [gridVisible] at hvi hvk ⊢
      obtain ⟨ha1, ha2, ha3, ha4, ha5, ha6, ha7, ha8⟩ := hvi
      obtain ⟨hb1, hb2, hb3, hb4, hb5, hb6, hb7, hb8⟩ := hvk
      have hm_1 : 1/10 < m.1 := by
        rw [hm1]
        exact convex_lt_lower ha1 hb1 ht0 ht1
      have hm_2 : m.1 < 50 := by
        rw [hm1]
        exact convex_lt_upper ha2 hb2 ht0 ht1
      have hm0 : (0 : ℚ) < m.1 := lt_trans (by norm_num) hm_1
      have hda : a.1 ^ 2 + a.2 ^ 2 < 2500 := (hrt _ (by positivity)).mp ha3
      have hdb : b.1 ^ 2 + b.2 ^ 2 < 2500 := (hrt _ (by positivity)).mp hb3
      have hm_3 : rt (m.1 ^ 2 + m.2 ^ 2) < 50 := by
        apply (hrt _ (by positivity)).mpr
        rw [hm1, hm2]
        exact convex_sq_sum hda hdb ht0 ht1
      rw [abs_lt] at ha4 hb4
      have hm_4 : |m.2| < m.1 * tanHalf := by
        rw [abs_lt]
        constructor
        · have hXa : (0 : ℚ) < a.2 + a.1 * tanHalf := by linarith [ha4.1]
          have hXb : (0 : ℚ) < b.2 + b.1 * tanHalf := by linarith [hb4.1]
          have hcv := convex_lt_lower hXa hXb ht0 ht1
          have hexp : m.2 + m.1 * tanHalf =
              (1 - t) * (a.2 + a.1 * tanHalf) + t * (b.2 + b.1 * tanHalf) := by
            rw [hm1, hm2]
            ring
          linarith [hcv, hexp]
        · have hYa : (0 : ℚ) < a.1 * tanHalf - a.2 := by linarith [ha4.2]
          have hYb : (0 : ℚ) < b.1 * tanHalf - b.2 := by linarith [hb4.2]
          have hcv := convex_lt_lower hYa hYb ht0 ht1
          have hexp : m.1 * tanHalf - m.2 =
              (1 - t) * (a.1 * tanHalf - a.2) + t * (b.1 * tanHalf - b.2) := by
            rw [hm1, hm2]
            ring
          linarith [hcv, hexp]
      have hsa := (sxBounds_iff tanHalf a.2 a.1 (lt_trans (by norm_num) ha1) ht).mp
        ⟨ha5, ha6⟩
      have hsb := (sxBounds_iff tanHalf b.2 b.1 (lt_trans (by norm_num) hb1) ht).mp
        ⟨hb5, hb6⟩
      have hsm : -(m.1 * tanHalf) < 320 * (m.1 * tanHalf) + 320 * m.2 ∧
          320 * (m.1 * tanHalf) + 320 * m.2 < 640 * (m.1 * tanHalf) := by
        constructor
        · have hXa : (0 : ℚ) < 321 * (a.1 * tanHalf) + 320 * a.2 := by
            linarith [hsa.1]
          have hXb : (0 : ℚ) < 321 * (b.1 * tanHalf) + 320 * b.2 := by
            linarith [hsb.1]
          have hcv := convex_lt_lower hXa hXb ht0 ht1
          have hexp : 321 * (m.1 * tanHalf) + 320 * m.2 =
              (1 - t) * (321 * (a.1 * tanHalf) + 320 * a.2) +
                t * (321 * (b.1 * tanHalf) + 320 * b.2) := by
            rw [hm1, hm2]
            ring
          linarith [hcv, hexp]
        · have hYa : (0 : ℚ) < 320 * (a.1 * tanHalf) - 320 * a.2 := by
            linarith [hsa.2]
          have hYb : (0 : ℚ) < 320 * (b.1 * tanHalf) - 320 * b.2 := by
            linarith [hsb.2]
          have hcv := convex_lt_lower hYa hYb ht0 ht1
          have hexp : 320 * (m.1 * tanHalf) - 320 * m.2 =
              (1 - t) * (320 * (a.1 * tanHalf) - 320 * a.2) +
                t * (320 * (b.1 * tanHalf) - 320 * b.2) := by
            rw [hm1, hm2]
            ring
          linarith [hcv, hexp]
      have hm56 := (sxBounds_iff tanHalf m.2 m.1 hm0 ht).mpr hsm
      have hha : horizon ≤ 479 :=
        (syBounds_iff tanHalf a.1 horizon (by linarith) ht).mp ⟨ha7, ha8⟩
      have hsy := (syBounds_iff tanHalf m.1 horizon (by linarith) ht).mpr hha
      exact ⟨hm_1, hm_2, hm_3, hm_4, hm56.1, hm56.2, hsy.1, hsy.2⟩

/-- Square-root model for the grid witness that satisfies the
`sqrt(q) < 50 ↔ q < 2500` characterization at every nonnegative input. -/
def rtG : ℚ → ℚ := fun q => if q < 2500 then 0 else 50

/-- Witness for C7: on the affine sample family starting at camera point
`(5, 0)` with step `(5, 1)`, the kept point `(320, 323, 5)` comes from
the visible sample `(5, 0)`, the single drawn segment joins two kept
points, and visibility of samples `0` and `2` forces visibility of the
sample `1` between them. -/
theorem C7_ground_grid_visibility_witness :
    (∃ p ∈ [((5 : ℚ), (0 : ℚ)), (10, 1)], gridVisible 1 rtG 266 p ∧
      (((320 : ℤ), (323 : ℤ), (5 : ℚ))) = (projectToScreenX 1 p.2 p.1,
        projectToScreenY 1 p.1 266, p.1)) ∧
    (((320 : ℤ), (323 : ℤ), (5 : ℚ)) ∈ gridLinePoints 1 rtG 266 [(5, 0), (10, 1)] ∧
      ((352 : ℤ), (294 : ℤ), (10 : ℚ)) ∈ gridLinePoints 1 rtG 266 [(5, 0), (10, 1)]) ∧
    gridVisible 1 rtG 266 (affineSample (5, 0) (5, 1) 1) := by
  have hrtG : ∀ q : ℚ, 0 ≤ q → (rtG q < 50 ↔ q < 2500) := by
    intro q hq
    rw [rtG]
    split
    case isTrue h => norm_num [h]
    case isFalse h => norm_num [h]
  have hpts : gridLinePoints 1 rtG 266 [(5, 0), (10, 1)] =
      [(320, 323, 5), (352, 294, 10)] := by
    norm_num [gridLinePoints, List.filterMap_cons, gridVisible, projectToScreenX,
      projectToScreenY, pytrunc, rtG, imageWidth, imageHeight, cameraHeight]
  have h := C7_ground_grid_visibility 1 rtG 266 poseEx (0, 0) (1, 0)
    [(5, 0), (10, 1)] (5, 0) (5, 1) 0 1 2
  refine ⟨?_, ?_, ?_⟩
  · refine h.2.1 (320, 323, 5) ?_
    rw [hpts]
    exact List.mem_cons_self _ _
  · refine h.2.2.1 ((320, 323, 5), (352, 294, 10)) ?_
    have hsort : sortByDepth (gridLinePoints 1 rtG 266 [(5, 0), (10, 1)]) =
        [(320, 323, 5), (352, 294, 10)] := by
      rw [hpts]
      norm_num [sortByDepth, List.insertionSort, List.orderedInsert]
    rw [gridSegments, hsort]
    simp
  · refine h.2.2.2 (by norm_num) hrtG (by norm_num) (by norm_num) ?_ ?_
    · norm_num [gridVisible, affineSample, projectToScreenX, projectToScreenY,
        pytrunc, rtG, imageWidth, imageHeight, cameraHeight]
    · norm_num [gridVisible, affineSample, projectToScreenX, projectToScreenY,
        pytrunc, rtG, imageWidth, imageHeight, cameraHeight]
